import Mathlib

/-!
Verification of the FTP operation core of the tiendanubecli repository
(src/lib/ftp/errors.ts, src/lib/ftp/service.ts, src/lib/ftp/connection-manager.ts,
src/lib/core/config.ts), via a shallow embedding in Lean 4.

Conventions of the embedding:
* `String`s model JS strings; raw transport failures are modelled by their
  message (classification in errors.ts depends only on the message).
* Asynchronous methods returning results or throwing become functions into
  `Except FtpError _`; remote side effects are recorded as explicit event
  traces (`Ev` lists), so that routing/counting claims can be stated.
* Environment behaviour (the local file system, the remote server's answers
  to each primitive call) is an explicit oracle argument (`Env`), since the
  TS code consults it through `fs` and the `basic-ftp` client.
-/

namespace Tnube

/-- Substring search over character lists: does `nee` occur contiguously in
`hay`? -/
def listContains (hay nee : List Char) : Bool :=
  match hay with
  | [] => nee.isEmpty
  | _ :: t => nee.isPrefixOf hay || listContains t nee

/-- JS `hay.includes(needle)` (substring containment). -/
def strIncludes (hay needle : String) : Bool :=
  listContains hay.toList needle.toList

/-- JS `s.toLowerCase()` for the ASCII marker alphabet used by the
classifier (character-wise lowering). -/
def strLower (s : String) : String :=
  String.mk (s.toList.map Char.toLower)

/-- Model of `path.posix.join a b` for the join shapes used by the walkers: a base path
with no trailing slash (or `/` or empty) joined with one further segment. -/
def pjoin (a b : String) : String :=
  if a = "" then b
  else if a.toList.getLast? = some '/' then a ++ b
  else a ++ "/" ++ b

/-- Model of `path.dirname` (POSIX) for paths without trailing slashes: everything up to
the last `/`; `.` when there is no slash; `/` when the last slash is leading. -/
def pdirname (p : String) : String :=
  let cs := p.toList
  if cs.contains '/' then
    let pre := (cs.reverse.dropWhile (fun c => c ≠ '/')).drop 1 |>.reverse
    if pre = [] then "/" else String.mk pre
  else "."

/-! ## errors.ts -/

/-- Model of `FtpErrorCode` from errors.ts. -/
inductive Code where
  | CONNECTION_ERROR
  | AUTH_ERROR
  | FILE_NOT_FOUND
  | PERMISSION_ERROR
  | TIMEOUT_ERROR
  | UNKNOWN_ERROR
deriving DecidableEq, Repr

/-- Model of `ErrorContext` from errors.ts (only the `filePath` member is read). -/
structure ErrorContext where
  filePath : Option String
deriving DecidableEq, Repr

/-- The empty context `{}` (classifyFtpError's default). -/
def emptyCtx : ErrorContext := ⟨none⟩

/-- Model of `FtpError` and its subclasses from errors.ts, flattened: the subclass is
determined by `code`, `isRetryable` is the override fixed by the subclass,
`filePath` is carried only by the FILE_NOT_FOUND / PERMISSION_ERROR
subclasses (`none` for the rest).  The `originalError` reference and the
wall-clock `timestamp` field are not modelled. -/
structure FtpError where
  message : String
  code : Code
  isRetryable : Bool
  filePath : Option String
deriving DecidableEq, Repr

/-- Input to `classifyFtpError`: either an `Error` object (whose `message`
may be `undefined`, hence `Option String`), or any non-`Error` value,
represented by its `String(error)` rendering. -/
inductive RawInput where
  | err (message : Option String)
  | nonError (s : String)
deriving DecidableEq, Repr

/-- JS template interpolation of `error.message` (an undefined message
renders as the string `undefined`). -/
def rawMsgText : Option String → String
  | some s => s
  | none => "undefined"

/-- Model of `context.filePath || "unknown"` — note JS `||` treats `""` as falsy. -/
def ctxPathText (ctx : ErrorContext) : String :=
  match ctx.filePath with
  | some p => if p = "" then "unknown" else p
  | none => "unknown"

/-- Model of `classifyFtpError(error, context)` from errors.ts: non-`Error` inputs map
to UNKNOWN; otherwise the lower-cased message is probed for substring
markers, first match in source order. -/
def classifyFtpError (e : RawInput) (ctx : ErrorContext) : FtpError :=
  match e with
  | .nonError s =>
    { message := "Unknown error: " ++ s, code := .UNKNOWN_ERROR,
      isRetryable := false, filePath := none }
  | .err m =>
    let message := strLower (m.getD "")
    let raw := rawMsgText m
    if strIncludes message "econnrefused" || strIncludes message "enotfound" ||
       strIncludes message "etimedout" || strIncludes message "econnreset" then
      { message := "Could not connect to FTP server: " ++ raw,
        code := .CONNECTION_ERROR, isRetryable := true, filePath := none }
    else if strIncludes message "login" || strIncludes message "authentication" ||
            strIncludes message "530" then
      { message := "FTP authentication error: " ++ raw,
        code := .AUTH_ERROR, isRetryable := false, filePath := none }
    else if strIncludes message "no such file" || strIncludes message "550" ||
            strIncludes message "not found" then
      { message := "File not found: " ++ ctxPathText ctx,
        code := .FILE_NOT_FOUND, isRetryable := false, filePath := ctx.filePath }
    else if strIncludes message "permission" || strIncludes message "553" ||
            strIncludes message "access denied" then
      { message := "Permission denied: " ++ ctxPathText ctx,
        code := .PERMISSION_ERROR, isRetryable := false, filePath := ctx.filePath }
    else if strIncludes message "timeout" || strIncludes message "timed out" then
      { message := "Timeout: " ++ raw,
        code := .TIMEOUT_ERROR, isRetryable := true, filePath := none }
    else
      { message := "FTP error: " ++ raw,
        code := .UNKNOWN_ERROR, isRetryable := false, filePath := none }

/-! Spec-side classifier for the refinement claim C6.  Modelled from the
spec's words ("inspect the lower-cased failure message for substring markers
and assign a code by first match, in this precedence order ..."), as an
ordered marker table with a first-match lookup. -/

/-- One row of the spec's precedence table: markers, assigned code,
retryability, and whether the context file path is attached. -/
structure SpecRow where
  markers : List String
  code : Code
  retryable : Bool
  attach : Bool
deriving DecidableEq, Repr

/-- The spec's precedence table, in the spec's order. -/
def specTable : List SpecRow :=
  [ ⟨["econnrefused", "enotfound", "etimedout", "econnreset"], .CONNECTION_ERROR, true, false⟩,
    ⟨["login", "authentication", "530"], .AUTH_ERROR, false, false⟩,
    ⟨["no such file", "550", "not found"], .FILE_NOT_FOUND, false, true⟩,
    ⟨["permission", "553", "access denied"], .PERMISSION_ERROR, false, true⟩,
    ⟨["timeout", "timed out"], .TIMEOUT_ERROR, true, false⟩ ]

/-- First row whose marker list matches the message; UNKNOWN when none does. -/
def firstMatch (msg : String) : List SpecRow → SpecRow
  | [] => ⟨[], .UNKNOWN_ERROR, false, false⟩
  | row :: rest =>
    if row.markers.any (fun t => strIncludes msg t) then row
    else firstMatch msg rest

/-- The spec's classification of a raw failure message. -/
def specClassify (m : Option String) : SpecRow :=
  firstMatch (strLower (m.getD "")) specTable

/-! ## config.ts -/

/-- Model of `ConnectionConfig` from config.ts. -/
structure ConnectionConfig where
  idleTimeout : Nat
  maxRetries : Nat
  retryDelay : Nat
deriving DecidableEq, Repr

/-- Model of `config.connection` from config.ts (hard-coded values). -/
def configConnection : ConnectionConfig :=
  { idleTimeout := 5 * 60 * 1000, maxRetries := 2, retryDelay := 1000 }

/-! ## service.ts — `executeOperation` (retry wrapper)

`executeOperation` loops `attempt = 1 .. maxRetries`.  Each iteration first
acquires a connection (`getConnection()`, which may throw) and then runs the
wrapped operation; any failure of either is classified, and either ends the
loop (non-retryable error, or last attempt) or leads to connection
invalidation plus a capped exponential backoff sleep before the next
attempt.  The model abstracts one iteration by two oracles indexed by the
attempt number: `connOk i` (`none` = `getConnection` succeeded, `some m` =
it threw an error with raw message `m`, in which case the operation itself
is never invoked) and `op i` (the wrapped operation's outcome).  The trace
records operation invocations, `invalidateConnection()` calls and backoff
sleeps. -/

/-- Events observable from one `executeOperation` run. -/
inductive REv where
  | invoke
  | invalidate
  | sleep (ms : Nat)
deriving DecidableEq, Repr

/-- The retry loop body of `executeOperation`; `fuel` is the number of
attempts still allowed including the current one (`maxRetries - attempt + 1`),
so `fuel = 0` at entry means the `for` loop has ended without an attempt and
the function throws the `lastError`-missing fallback. -/
def execGo {α : Type} (connOk : Nat → Option String) (op : Nat → Except String α)
    (opName : String) (ctx : ErrorContext) (retryDelay : Nat) :
    Nat → Nat → Except FtpError α × List REv
  | _, 0 =>
    (.error { message := "Operation " ++ opName ++ " failed without error",
              code := .UNKNOWN_ERROR, isRetryable := false, filePath := none }, [])
  | attempt, fuel + 1 =>
    let step : Except String α × List REv :=
      match connOk attempt with
      | some m => (.error m, [])
      | none =>
        match op attempt with
        | .ok a => (.ok a, [.invoke])
        | .error m => (.error m, [.invoke])
    match step with
    | (.ok a, evs) => (.ok a, evs)
    | (.error m, evs) =>
      let e := classifyFtpError (.err (some m)) ctx
      if !e.isRetryable || fuel == 0 then
        (.error e, evs)
      else
        let d := min (retryDelay * 2 ^ (attempt - 1)) 5000
        let (r, evs') := execGo connOk op opName ctx retryDelay (attempt + 1) fuel
        (r, evs ++ [.invalidate, .sleep d] ++ evs')

/-- Model of `executeOperation` from service.ts, starting at attempt 1. -/
def executeOperationM {α : Type} (maxRetries retryDelay : Nat)
    (connOk : Nat → Option String) (op : Nat → Except String α)
    (opName : String) (ctx : ErrorContext) : Except FtpError α × List REv :=
  execGo connOk op opName ctx retryDelay 1 maxRetries

/-- Number of times the wrapped operation was invoked in a trace. -/
def invokeCount (evs : List REv) : Nat :=
  evs.countP (fun e => e == .invoke)

/-- Number of `invalidateConnection()` calls in a trace. -/
def invalidateCount (evs : List REv) : Nat :=
  evs.countP (fun e => e == .invalidate)

/-! ## connection-manager.ts

The manager's mutable state is the `client` slot and the `isConnecting`
flag.  A client handle carries its `closed` flag (the only field the manager
inspects) and — for stating the claim — whether the `access()` authentication
handshake has completed on it.  Crucially, `connect()` assigns
`this.client = new Client()` *before* awaiting `access(...)`, so while a
connection attempt is in flight the slot holds a non-null, not yet
authenticated client (whose socket may or may not already be TCP-connected,
hence both values of `closed` are possible mid-flight).

Wall-clock aspects (`lastActivity`, the idle timer) and the 100ms polling
cadence inside `waitForConnection` are not modelled; what the model keeps of
`waitForConnection` is its observable outcome: how the in-flight attempt has
resolved by the time the bounded wait (maxWait = 10s) is over. -/

/-- A `basic-ftp` client handle as seen by the manager. -/
structure ClientH where
  closed : Bool
  authenticated : Bool
deriving DecidableEq, Repr

/-- Manager state: the singleton slot and the connecting flag. -/
structure MgrState where
  client : Option ClientH
  isConnecting : Bool
deriving DecidableEq, Repr

/-- How an in-flight connection attempt relates to the waiting bound:
it resolves successfully within the 10s wait, resolves with failure within
the wait, or is still unresolved when the wait expires. -/
inductive InFlight where
  | resolvesOk (c : ClientH)
  | resolvesFail
  | unresolved
deriving DecidableEq, Repr

/-- State evolution of the manager slot during the waiting loop of
`waitForConnection`, as a function of how the in-flight attempt resolves.
`connect()` on success stores the authenticated client and clears the flag;
on failure it nulls the slot and clears the flag; if the attempt is still
unresolved when the loop's 10s bound expires, the state is untouched. -/
def stepInFlight (st : MgrState) : InFlight → MgrState
  | .resolvesOk c => { client := some c, isConnecting := false }
  | .resolvesFail => { client := none, isConnecting := false }
  | .unresolved => st

/-- Model of `waitForConnection()` from connection-manager.ts: after the polling loop
ends (attempt resolved or 10s elapsed), it throws
`Timeout waiting for FTP connection` iff `this.client` is null. -/
def waitForConnectionM (st : MgrState) (f : InFlight) : Except String MgrState :=
  let st' := stepInFlight st f
  if st'.client.isNone then .error "Timeout waiting for FTP connection"
  else .ok st'

/-- A fresh, successfully authenticated client as produced by `connect()`. -/
def freshClient : ClientH := { closed := false, authenticated := true }

/-- Model of `connect()` from connection-manager.ts, parameterised by whether the
`access(...)` handshake succeeds.  On failure the slot is nulled and a
classified error is raised (represented by its message). -/
def connectM (accessOk : Bool) : Except String (ClientH × MgrState) :=
  if accessOk then
    .ok (freshClient, { client := some freshClient, isConnecting := false })
  else .error "classified connect failure"

/-- The `isConnecting` branch of `getConnection()`: wait for the in-flight
attempt, then `if (!this.client) throw "Connection failed during wait"`,
else return `this.client`. -/
def afterWait (st : MgrState) (f : InFlight) : Except String (ClientH × MgrState) :=
  match waitForConnectionM st f with
  | .error m => .error m
  | .ok st' =>
    match st'.client with
    | none => .error "Connection failed during wait"
    | some c => .ok (c, st')

/-- Model of `getConnection()` from connection-manager.ts (idle-timer bookkeeping
omitted): reuse an open client; else wait on an in-flight attempt; else
connect afresh. -/
def getConnectionM (st : MgrState) (f : InFlight) (accessOk : Bool) :
    Except String (ClientH × MgrState) :=
  match st.client with
  | some c =>
    if c.closed = false then .ok (c, st)
    else if st.isConnecting then afterWait st f
    else connectM accessOk
  | none =>
    if st.isConnecting then afterWait st f
    else connectM accessOk

/-! ## service.ts — operations and recursive walks, as event traces

Each public `FtpService` method is modelled as a function returning its
outcome together with the list of observable events it caused.  Wrapped
(`executeOperation`) runs appear at the granularity of their final outcome:
a successful run contributes `Ev.exec ps` with the remote primitives the
wrapped closure performed, a run that ultimately failed (after
`executeOperation`'s own retries, which are modelled in detail by
`executeOperationM` above) contributes `Ev.execFail p` where `p` is the
principal primitive of that closure.  Primitives invoked directly on the
pooled client — outside any `executeOperation` — appear as `Ev.direct p`.
Connection acquisitions appear as `Ev.getConn`, and the walker's calls into
`uploadFile` / `createDirectory` as `Ev.svcUpload` / `Ev.svcCreateDir`.

The environment oracle `Env` answers the file-system test
(`fsSync.existsSync`), `fs.readdir` failures, the final outcome of each
wrapped run (keyed by its principal primitive), and the outcome of each
direct client call.  Raw failures are represented by their message, which is
all `classifyFtpError` consumes. -/

/-- Remote primitives of the `basic-ftp` client used by service.ts. -/
inductive Prim where
  | ensureDir (p : String)
  | uploadFrom (l r : String)
  | downloadTo (l r : String)
  | remove (p : String)
  | removeDir (p : String)
  | list (p : String)
deriving DecidableEq, Repr

/-- Observable events of a service-level run. -/
inductive Ev where
  | getConn
  | svcUpload (l r : String)
  | svcCreateDir (r : String)
  | exec (ps : List Prim)
  | execFail (p : Prim)
  | direct (p : Prim)
deriving DecidableEq, Repr

/-- Is this event a primitive executed directly on the pooled client? -/
def Ev.isDirect : Ev → Bool
  | .direct _ => true
  | _ => false

/-- Is this event an `executeOperation` run (successful or failed)? -/
def Ev.isWrapped : Ev → Bool
  | .exec _ => true
  | .execFail _ => true
  | _ => false

/-- Primitives carried by one event. -/
def Ev.prims : Ev → List Prim
  | .exec ps => ps
  | .direct p => [p]
  | _ => []

/-- Environment oracle for the service-level model. -/
structure Env where
  localExists : String → Bool
  readdirFail : String → Option String
  wrapRes : Prim → Option String
  directRes : Prim → Option String

/-- The all-success environment. -/
def okEnv : Env :=
  { localExists := fun _ => true, readdirFail := fun _ => none,
    wrapRes := fun _ => none, directRes := fun _ => none }

/-- Model of `uploadFile(localPath, remotePath)` from service.ts: fail fast (before
any connection use) when the local file is missing; otherwise one wrapped
run that ensures the remote parent directory and transfers the file.  The
wrapped run's final outcome is `env.wrapRes (.uploadFrom l r)`; a failure is
the classified error with context `{filePath: remotePath}`. -/
def uploadFileW (env : Env) (l r : String) : Except FtpError Bool × List Ev :=
  if env.localExists l = false then
    (.error { message := "Local file does not exist: " ++ l,
              code := .FILE_NOT_FOUND, isRetryable := false, filePath := none }, [])
  else
    match env.wrapRes (.uploadFrom l r) with
    | none => (.ok true, [.getConn, .exec [.ensureDir (pdirname r), .uploadFrom l r]])
    | some raw =>
      (.error (classifyFtpError (.err (some raw)) ⟨some r⟩),
       [.getConn, .execFail (.uploadFrom l r)])

/-- Model of `deleteFile(remotePath)` from service.ts. -/
def deleteFileW (env : Env) (r : String) : Except FtpError Bool × List Ev :=
  match env.wrapRes (.remove r) with
  | none => (.ok true, [.getConn, .exec [.remove r]])
  | some raw =>
    (.error (classifyFtpError (.err (some raw)) ⟨some r⟩), [.getConn, .execFail (.remove r)])

/-- Model of `createDirectory(remotePath)` from service.ts. -/
def createDirectoryW (env : Env) (r : String) : Except FtpError Bool × List Ev :=
  match env.wrapRes (.ensureDir r) with
  | none => (.ok true, [.getConn, .exec [.ensureDir r]])
  | some raw =>
    (.error (classifyFtpError (.err (some raw)) ⟨some r⟩), [.getConn, .execFail (.ensureDir r)])

/-- Model of `removeDirectory(remotePath)` from service.ts. -/
def removeDirectoryW (env : Env) (r : String) : Except FtpError Bool × List Ev :=
  match env.wrapRes (.removeDir r) with
  | none => (.ok true, [.getConn, .exec [.removeDir r]])
  | some raw =>
    (.error (classifyFtpError (.err (some raw)) ⟨some r⟩), [.getConn, .execFail (.removeDir r)])

/-- Model of `downloadFile(remoteFilePath, localFilePath)` from service.ts (the local
`mkdir` of the destination directory is a local-FS effect, not recorded). -/
def downloadFileW (env : Env) (r l : String) : Except FtpError Bool × List Ev :=
  match env.wrapRes (.downloadTo l r) with
  | none => (.ok true, [.getConn, .exec [.downloadTo l r]])
  | some raw =>
    (.error (classifyFtpError (.err (some raw)) ⟨some r⟩), [.getConn, .execFail (.downloadTo l r)])

/-- Model of `listDirectory(remotePath)` from service.ts (the listing's data is
supplied elsewhere; here only outcome and routing are modelled). -/
def listDirectoryW (env : Env) (r : String) : Except FtpError Bool × List Ev :=
  match env.wrapRes (.list r) with
  | none => (.ok true, [.getConn, .exec [.list r]])
  | some raw =>
    (.error (classifyFtpError (.err (some raw)) ⟨some r⟩), [.getConn, .execFail (.list r)])

mutual

/-- A local directory entry as produced by `fs.readdir(..., {withFileTypes})`:
a regular file or a subdirectory with its own entries.  (`EntryList` is an
inlined list type so that the walkers below are structurally recursive.) -/
inductive Entry where
  | file (name : String)
  | dir (name : String) (children : EntryList)

/-- A list of local directory entries. -/
inductive EntryList where
  | nil
  | cons (e : Entry) (rest : EntryList)

end

/-- The `try { readdir ...; loop } catch { classify; throw }` wrapper of
`uploadDirectory(localPath, ...)`, applied to the result of walking the
listed entries: a `readdir` failure is classified (context
`{filePath: localPath}`) and thrown before the loop; an error escaping the
loop is caught, re-classified from its message with the same context, and
re-thrown. -/
def uploadDirBody (env : Env) (lp : String) (sub : Except FtpError Unit × List Ev) :
    Except FtpError Unit × List Ev :=
  match env.readdirFail lp with
  | some raw => (.error (classifyFtpError (.err (some raw)) ⟨some lp⟩), [])
  | none =>
    match sub with
    | (.ok _, evs) => (.ok (), evs)
    | (.error e, evs) => (.error (classifyFtpError (.err (some e.message)) ⟨some lp⟩), evs)

mutual

/-- One iteration of the entry loop of `uploadDirectory`: a subdirectory
gets a `createDirectory` call (whose failure escapes the loop) followed by
the recursive `uploadDirectory` call — its readdir-check/catch wrapper
`uploadDirBody` applied at the child's local path — whose failure also
escapes the loop; a regular file gets an `uploadFile` call inside
`try/catch`, so its outcome is discarded and the loop always continues. -/
def uploadEntry (env : Env) : Entry → String → String → Except FtpError Unit × List Ev
  | .file n, lp, rp =>
    (.ok (), Ev.svcUpload (pjoin lp n) (pjoin rp n)
               :: (uploadFileW env (pjoin lp n) (pjoin rp n)).2)
  | .dir n cs, lp, rp =>
    match createDirectoryW env (pjoin rp n) with
    | (.error ce, evsC) => (.error ce, Ev.svcCreateDir (pjoin rp n) :: evsC)
    | (.ok _, evsC) =>
      match uploadDirBody env (pjoin lp n) (uploadWalk env cs (pjoin lp n) (pjoin rp n)) with
      | (.error de, evsD) =>
        (.error de, (Ev.svcCreateDir (pjoin rp n) :: evsC) ++ evsD)
      | (.ok _, evsD) =>
        (.ok (), (Ev.svcCreateDir (pjoin rp n) :: evsC) ++ evsD)

/-- The entry loop of `uploadDirectory`: process entries in order; an error
escaping an iteration aborts the loop (it will be caught and re-thrown by
the enclosing catch), otherwise continue with the next sibling. -/
def uploadWalk (env : Env) : EntryList → String → String → Except FtpError Unit × List Ev
  | .nil, _, _ => (.ok (), [])
  | .cons e rest, lp, rp =>
    match uploadEntry env e lp rp with
    | (.error ce, evs) => (.error ce, evs)
    | (.ok _, evs) =>
      ((uploadWalk env rest lp rp).1, evs ++ (uploadWalk env rest lp rp).2)

end

/-- Model of `uploadDirectory(localPath, remotePath, ...)` from service.ts. -/
def uploadDirectoryM (env : Env) (entries : EntryList) (lp rp : String) :
    Except FtpError Unit × List Ev :=
  uploadDirBody env lp (uploadWalk env entries lp rp)

/-- Model of `uploadAll(localBasePath, remoteBasePath)` from service.ts: verify the
local root exists (throwing an `FtpError` caught by the method's own catch
and re-classified from its message), `readdir` the root, ensure the remote
base directory **directly on the pooled client**, then run the recursive
walker; any escaping error is re-classified (no context) and re-thrown. -/
def uploadAllW (env : Env) (tree : EntryList) (localBase remoteBase : String) :
    Except FtpError Bool × List Ev :=
  if env.localExists localBase = false then
    (.error (classifyFtpError
      (.err (some ("Local directory does not exist: " ++ localBase))) emptyCtx), [])
  else
    match env.readdirFail localBase with
    | some raw => (.error (classifyFtpError (.err (some raw)) emptyCtx), [])
    | none =>
      let evs0 : List Ev := [.getConn, .direct (.ensureDir remoteBase)]
      match env.directRes (.ensureDir remoteBase) with
      | some raw => (.error (classifyFtpError (.err (some raw)) emptyCtx), evs0)
      | none =>
        match uploadDirectoryM env tree localBase remoteBase with
        | (.ok _, evs) => (.ok true, evs0 ++ evs)
        | (.error e, evs) =>
          (.error (classifyFtpError (.err (some e.message)) emptyCtx), evs0 ++ evs)

/-- Model of `FileInfo.type` may be a character code or a numeric code. -/
inductive FType where
  | str (s : String)
  | num (n : Nat)
deriving DecidableEq, Repr

/-- JS `String(item.type)`. -/
def FType.typeStr : FType → String
  | .str s => s
  | .num n => toString n

/-- Model of `typeStr === "d" || typeStr === "2" || item.type === 2` from service.ts. -/
def isDirT (t : FType) : Bool :=
  t.typeStr == "d" || t.typeStr == "2" || t == .num 2

/-- Model of `typeStr === "-" || typeStr === "1" || item.type === 1` from service.ts. -/
def isFileT (t : FType) : Bool :=
  t.typeStr == "-" || t.typeStr == "1" || t == .num 1

mutual

/-- A remote listing entry together with the subtree `client.list` would
report under it (empty for regular files). -/
inductive RNode where
  | node (name : String) (ftype : FType) (children : RList)

/-- A list of remote listing entries. -/
inductive RList where
  | nil
  | cons (nd : RNode) (rest : RList)

end

/-- The `getConnection(); try { client.list ...; loop } catch { classify;
throw }` wrapper of `downloadDirectory(remotePath, ...)`: the listing is a
**direct** client call; its failure — or an error escaping the loop — is
classified with context `{filePath: remotePath}` and thrown. -/
def downloadDirBody (env : Env) (rp : String) (sub : Except FtpError Unit × List Ev) :
    Except FtpError Unit × List Ev :=
  let evs0 : List Ev := [.getConn, .direct (.list rp)]
  match env.directRes (.list rp) with
  | some raw => (.error (classifyFtpError (.err (some raw)) ⟨some rp⟩), evs0)
  | none =>
    match sub with
    | (.ok _, evs) => (.ok (), evs0 ++ evs)
    | (.error e, evs) =>
      (.error (classifyFtpError (.err (some e.message)) ⟨some rp⟩), evs0 ++ evs)

mutual

/-- One iteration of the item loop of `downloadDirectory`: a directory-typed
item gets a local `mkdir` (local-FS effect, not recorded) and the recursive
`downloadDirectory` call, whose failure escapes the loop; a file-typed item
gets a **direct** `client.downloadTo` inside `try/catch`, so its outcome is
discarded and the loop always continues; other types are logged and
skipped. -/
def downloadEntry (env : Env) (tfp : String) :
    RNode → String → String → Except FtpError Unit × List Ev
  | .node n t cs, rp, lp =>
    if isDirT t then
      match downloadDirBody env (pjoin rp n) (downloadWalk env tfp cs (pjoin rp n) (pjoin lp n)) with
      | (.error e, evs) => (.error e, evs)
      | (.ok _, evs) => (.ok (), evs)
    else if isFileT t then
      (.ok (), [Ev.direct (.downloadTo (pjoin lp n) (pjoin rp n))])
    else
      (.ok (), [])

/-- The item loop of `downloadDirectory`: process items in order; an error
escaping an iteration aborts the loop (to be caught, re-classified and
re-thrown by the enclosing catch). -/
def downloadWalk (env : Env) (tfp : String) :
    RList → String → String → Except FtpError Unit × List Ev
  | .nil, _, _ => (.ok (), [])
  | .cons nd rest, rp, lp =>
    match downloadEntry env tfp nd rp lp with
    | (.error e, evs) => (.error e, evs)
    | (.ok _, evs) =>
      ((downloadWalk env tfp rest rp lp).1, evs ++ (downloadWalk env tfp rest rp lp).2)

end

/-- Model of `downloadDirectory(remotePath, localPath, themeFolderPath)` from
service.ts; `themeFolderPath` is only used for logging. -/
def downloadDirectoryM (env : Env) (contents : RList) (rp lp tfp : String) :
    Except FtpError Unit × List Ev :=
  downloadDirBody env rp (downloadWalk env tfp contents rp lp)

/-- Model of `downloadAll(remoteBasePath, localBasePath)` from service.ts: create the
local root if needed (local-FS effect), acquire a connection, probe the
remote root with a **direct** `client.list`, then run the recursive walker;
any escaping error is re-classified (no context) and re-thrown. -/
def downloadAllM (env : Env) (tree : RList) (remoteBase localBase : String) :
    Except FtpError Bool × List Ev :=
  let evs0 : List Ev := [.getConn, .direct (.list remoteBase)]
  match env.directRes (.list remoteBase) with
  | some raw => (.error (classifyFtpError (.err (some raw)) emptyCtx), evs0)
  | none =>
    match downloadDirectoryM env tree remoteBase localBase localBase with
    | (.ok _, evs) => (.ok true, evs0 ++ evs)
    | (.error e, evs) =>
      (.error (classifyFtpError (.err (some e.message)) emptyCtx), evs0 ++ evs)

/-- All `uploadFrom` transfers (local, remote) performed in a trace,
wrapped or direct, in order. -/
def transfersOf (evs : List Ev) : List (String × String) :=
  (evs.foldr (fun e acc => e.prims ++ acc) []).filterMap fun p =>
    match p with
    | .uploadFrom l r => some (l, r)
    | _ => none

/-- All `createDirectory` service calls in a trace, in order. -/
def dirCreationsOf (evs : List Ev) : List String :=
  evs.filterMap fun e =>
    match e with
    | .svcCreateDir r => some r
    | _ => none

/-- No event of the trace is a direct (unwrapped) client call. -/
def noDirectEvs (evs : List Ev) : Bool :=
  evs.all fun e => !e.isDirect

/-- No event of the trace is an `executeOperation` run. -/
def noWrappedEvs (evs : List Ev) : Bool :=
  evs.all fun e => !e.isWrapped

/-! ## Helper lemmas -/

/-- Each branch of the classifier fixes `isRetryable` by the code it
assigns: retryable exactly for CONNECTION and TIMEOUT. -/
theorem classify_isRetryable_eq (inp : RawInput) (ctx : ErrorContext) :
    (classifyFtpError inp ctx).isRetryable =
      ((classifyFtpError inp ctx).code == Code.CONNECTION_ERROR ||
       (classifyFtpError inp ctx).code == Code.TIMEOUT_ERROR) := by
  cases inp with
  | nonError s => rfl
  | err m =>
    simp only [classifyFtpError]
    split_ifs <;> rfl

/-- A CONNECTION-classified error is retryable. -/
theorem classify_connection_retryable (inp : RawInput) (ctx : ErrorContext)
    (h : (classifyFtpError inp ctx).code = Code.CONNECTION_ERROR) :
    (classifyFtpError inp ctx).isRetryable = true := by
  rw [classify_isRetryable_eq, h]
  rfl

/-- An AUTH-classified error is not retryable. -/
theorem classify_auth_not_retryable (inp : RawInput) (ctx : ErrorContext)
    (h : (classifyFtpError inp ctx).code = Code.AUTH_ERROR) :
    (classifyFtpError inp ctx).isRetryable = false := by
  rw [classify_isRetryable_eq, h]
  rfl

/-- Appending traces preserves "no direct client call". -/
theorem noDirect_append (a b : List Ev) (ha : noDirectEvs a = true)
    (hb : noDirectEvs b = true) : noDirectEvs (a ++ b) = true := by
  simp only [noDirectEvs, List.all_append, Bool.and_eq_true]
  exact ⟨ha, hb⟩

/-- Lemma: `uploadFile` never touches the client outside `executeOperation`. -/
theorem noDirect_uploadFileW (env : Env) (l r : String) :
    noDirectEvs (uploadFileW env l r).2 = true := by
  by_cases he : env.localExists l = false <;>
    cases h : env.wrapRes (.uploadFrom l r) <;>
      simp [uploadFileW, he, h, noDirectEvs, Ev.isDirect]

/-- Lemma: `createDirectory` never touches the client outside `executeOperation`. -/
theorem noDirect_createDirectoryW (env : Env) (r : String) :
    noDirectEvs (createDirectoryW env r).2 = true := by
  cases h : env.wrapRes (.ensureDir r) <;>
    simp [createDirectoryW, h, noDirectEvs, Ev.isDirect]

/-- The readdir-check/catch wrapper adds no direct client call. -/
theorem noDirect_uploadDirBody (env : Env) (lp : String)
    (sub : Except FtpError Unit × List Ev) (h : noDirectEvs sub.2 = true) :
    noDirectEvs (uploadDirBody env lp sub).2 = true := by
  rcases sub with ⟨res, evs⟩
  cases hr : env.readdirFail lp <;> cases res <;>
    simp_all [uploadDirBody, noDirectEvs]

mutual

/-- Processing one local entry performs no direct client call. -/
theorem noDirect_uploadEntry (env : Env) :
    ∀ (e : Entry) (lp rp : String), noDirectEvs (uploadEntry env e lp rp).2 = true
  | .file n, lp, rp => by
    have h := noDirect_uploadFileW env (pjoin lp n) (pjoin rp n)
    simp only [uploadEntry]
    simpa [noDirectEvs, Ev.isDirect] using h
  | .dir n cs, lp, rp => by
    have hw := noDirect_uploadWalk env cs (pjoin lp n) (pjoin rp n)
    have hb := noDirect_uploadDirBody env (pjoin lp n) _ hw
    cases hc : env.wrapRes (Prim.ensureDir (pjoin rp n)) with
    | none =>
      rcases hB : uploadDirBody env (pjoin lp n) (uploadWalk env cs (pjoin lp n) (pjoin rp n))
        with ⟨resB, evsB⟩
      rw [hB] at hb
      cases resB <;>
        simp_all [uploadEntry, createDirectoryW, hc, hB, noDirectEvs, Ev.isDirect]
    | some raw =>
      simp [uploadEntry, createDirectoryW, hc, noDirectEvs, Ev.isDirect]

/-- The upload walk performs no direct client call. -/
theorem noDirect_uploadWalk (env : Env) :
    ∀ (es : EntryList) (lp rp : String), noDirectEvs (uploadWalk env es lp rp).2 = true
  | .nil, _, _ => rfl
  | .cons e rest, lp, rp => by
    have he := noDirect_uploadEntry env e lp rp
    have hr := noDirect_uploadWalk env rest lp rp
    rcases hE : uploadEntry env e lp rp with ⟨resE, evsE⟩
    rw [hE] at he
    cases resE <;> simp_all [uploadWalk, hE, noDirect_append]

end

/-- Lemma: `uploadDirectory` performs no direct client call. -/
theorem noDirect_uploadDirectoryM (env : Env) (es : EntryList) (lp rp : String) :
    noDirectEvs (uploadDirectoryM env es lp rp).2 = true :=
  noDirect_uploadDirBody env lp _ (noDirect_uploadWalk env es lp rp)

/-- Traces with no direct call have an empty direct filter. -/
theorem filter_isDirect_eq_nil (evs : List Ev) (h : noDirectEvs evs = true) :
    evs.filter Ev.isDirect = [] := by
  simp only [noDirectEvs, List.all_eq_true] at h
  rw [List.filter_eq_nil_iff]
  intro a ha
  have := h a ha
  simp_all

/-- The download-directory wrapper never runs a wrapped operation, given
the walk below it does not. -/
theorem noWrapped_downloadDirBody (env : Env) (rp : String)
    (sub : Except FtpError Unit × List Ev) (h : noWrappedEvs sub.2 = true) :
    noWrappedEvs (downloadDirBody env rp sub).2 = true := by
  rcases sub with ⟨res, evs⟩
  cases hr : env.directRes (.list rp) <;> cases res <;>
    simp_all [downloadDirBody, noWrappedEvs, Ev.isWrapped]

mutual

/-- Processing one remote item never runs a wrapped operation. -/
theorem noWrapped_downloadEntry (env : Env) (tfp : String) :
    ∀ (nd : RNode) (rp lp : String), noWrappedEvs (downloadEntry env tfp nd rp lp).2 = true
  | .node n t cs, rp, lp => by
    have hw := noWrapped_downloadWalk env tfp cs (pjoin rp n) (pjoin lp n)
    have hb := noWrapped_downloadDirBody env (pjoin rp n) _ hw
    by_cases hd : isDirT t = true
    · rcases hB : downloadDirBody env (pjoin rp n)
          (downloadWalk env tfp cs (pjoin rp n) (pjoin lp n)) with ⟨resB, evsB⟩
      rw [hB] at hb
      cases resB <;> simp_all [downloadEntry, hd, hB, noWrappedEvs]
    · by_cases hf : isFileT t = true <;>
        simp [downloadEntry, hd, hf, noWrappedEvs, Ev.isWrapped]

/-- The download walk never runs a wrapped operation. -/
theorem noWrapped_downloadWalk (env : Env) (tfp : String) :
    ∀ (ns : RList) (rp lp : String), noWrappedEvs (downloadWalk env tfp ns rp lp).2 = true
  | .nil, _, _ => rfl
  | .cons nd rest, rp, lp => by
    have he := noWrapped_downloadEntry env tfp nd rp lp
    have hr := noWrapped_downloadWalk env tfp rest rp lp
    rcases hE : downloadEntry env tfp nd rp lp with ⟨resE, evsE⟩
    rw [hE] at he
    cases resE <;>
      simp_all [downloadWalk, hE, noWrappedEvs, List.all_append, Bool.and_eq_true]

end

/-! ## Claim theorems -/

/-- C1 — the claim fails on the code.  `connect()` assigns `this.client`
before awaiting the authentication handshake, so while an attempt is in
flight the slot holds a non-null, not-yet-authenticated client.  If a
`getConnection()` call arrives then and the attempt is still unresolved
when the 10-second bound of `waitForConnection` expires, the timeout check
`if (!this.client) throw` does not fire, and `getConnection()` returns the
in-flight handle: not authenticated (first conjunct; the mid-handshake
socket is already TCP-connected so `closed === false` and the reuse branch
returns it at once), or even still closed (second conjunct, via the wait
branch).  The claimed timeout failure never happens. -/
theorem getConnection_inflight_timeout_returns_unusable_handle :
    (getConnectionM { client := some { closed := false, authenticated := false },
                      isConnecting := true } .unresolved true
       = .ok ({ closed := false, authenticated := false },
              { client := some { closed := false, authenticated := false },
                isConnecting := true }))
    ∧ (getConnectionM { client := some { closed := true, authenticated := false },
                        isConnecting := true } .unresolved true
       = .ok ({ closed := true, authenticated := false },
              { client := some { closed := true, authenticated := false },
                isConnecting := true })) :=
  ⟨rfl, rfl⟩

/-- C3 — confirmed.  For every wrapped operation failing with a
CONNECTION-classified error on each attempt (connection acquisition
succeeding), `executeOperation` with the configured `maxRetries = 2`
invokes the operation exactly twice, invalidates the pooled connection
exactly once — between the two attempts, with the 1000ms backoff sleep —
and raises the classified error of the last attempt. -/
theorem executeOperation_connection_retries_twice (α : Type) (opName : String)
    (ctx : ErrorContext) (msgs : Nat → String)
    (h : ∀ i, (classifyFtpError (.err (some (msgs i))) ctx).code = Code.CONNECTION_ERROR) :
    executeOperationM configConnection.maxRetries configConnection.retryDelay
        (fun _ => none) (fun i => (.error (msgs i) : Except String α)) opName ctx
      = (.error (classifyFtpError (.err (some (msgs 2))) ctx),
         [.invoke, .invalidate, .sleep 1000, .invoke]) := by
  have r1 := classify_connection_retryable (.err (some (msgs 1))) ctx (h 1)
  simp [executeOperationM, configConnection, execGo, r1]

/-- Witness for C3 at a concrete always-ECONNREFUSED operation. -/
theorem executeOperation_connection_retries_twice_witness :
    executeOperationM configConnection.maxRetries configConnection.retryDelay
        (fun _ => none) (fun i => (.error ((fun _ => "ECONNREFUSED 127.0.0.1:21") i) : Except String Bool))
        "upload file /x" emptyCtx
      = (.error (classifyFtpError (.err (some "ECONNREFUSED 127.0.0.1:21")) emptyCtx),
         [.invoke, .invalidate, .sleep 1000, .invoke]) :=
  executeOperation_connection_retries_twice Bool "upload file /x" emptyCtx
    (fun _ => "ECONNREFUSED 127.0.0.1:21")
    (fun _ => (by decide :
      (classifyFtpError (.err (some "ECONNREFUSED 127.0.0.1:21")) emptyCtx).code
        = Code.CONNECTION_ERROR))

/-- C4 — the claim as stated fails at `maxRetries = 0`: the `for` loop body
never runs, the operation is invoked 0 times (not 1), and the raised error
is the `lastError`-missing UNKNOWN fallback, not the classified AUTH
error. -/
theorem executeOperation_zero_maxRetries_no_invocation :
    (classifyFtpError (.err (some "530 Login incorrect")) emptyCtx).code = Code.AUTH_ERROR
    ∧ executeOperationM 0 1000 (fun _ => none)
        (fun _ => (.error "530 Login incorrect" : Except String Bool)) "op" emptyCtx
      = (.error { message := "Operation op failed without error", code := .UNKNOWN_ERROR,
                  isRetryable := false, filePath := none }, []) := by
  exact ⟨by decide, rfl⟩

/-- C4 — amended: for every `maxRetries ≥ 1` (in particular the configured
value 2), a wrapped operation failing with an AUTH-classified error is
invoked exactly once and the classified error of that first attempt is
raised. -/
theorem executeOperation_auth_single_attempt (α : Type) (opName : String) (ctx : ErrorContext)
    (maxR rd : Nat) (hR : 1 ≤ maxR) (msgs : Nat → String)
    (h : ∀ i, (classifyFtpError (.err (some (msgs i))) ctx).code = Code.AUTH_ERROR) :
    executeOperationM maxR rd (fun _ => none)
        (fun i => (.error (msgs i) : Except String α)) opName ctx
      = (.error (classifyFtpError (.err (some (msgs 1))) ctx), [.invoke]) := by
  obtain ⟨k, rfl⟩ : ∃ k, maxR = k + 1 := ⟨maxR - 1, by omega⟩
  have r1 := classify_auth_not_retryable (.err (some (msgs 1))) ctx (h 1)
  simp [executeOperationM, execGo, r1]

/-- Witness for the amended C4 at the configured `maxRetries = 2` and a
concrete 530-login failure. -/
theorem executeOperation_auth_single_attempt_witness :
    1 ≤ configConnection.maxRetries
    ∧ executeOperationM configConnection.maxRetries configConnection.retryDelay
        (fun _ => none) (fun i => (.error ((fun _ => "530 Login incorrect") i) : Except String Bool))
        "delete file /x" emptyCtx
      = (.error (classifyFtpError (.err (some "530 Login incorrect")) emptyCtx), [.invoke]) :=
  ⟨by decide,
   executeOperation_auth_single_attempt Bool "delete file /x" emptyCtx
     configConnection.maxRetries configConnection.retryDelay (by decide)
     (fun _ => "530 Login incorrect")
     (fun _ => (by decide :
       (classifyFtpError (.err (some "530 Login incorrect")) emptyCtx).code
         = Code.AUTH_ERROR))⟩

/-- C9 — confirmed.  `uploadFile` on a missing local path raises the
FILE_NOT_FOUND `FtpError` with an empty event trace: no `getConnection`,
no `executeOperation` run (hence no retry), no remote primitive. -/
theorem uploadFile_missing_local_fails_fast (env : Env) (l r : String)
    (h : env.localExists l = false) :
    uploadFileW env l r
      = (.error { message := "Local file does not exist: " ++ l, code := .FILE_NOT_FOUND,
                  isRetryable := false, filePath := none }, []) := by
  simp [uploadFileW, h]

/-- An environment without the requested local file. -/
def noFileEnv : Env :=
  { okEnv with localExists := fun _ => false }

/-- Witness for C9 at a concrete missing path. -/
theorem uploadFile_missing_local_fails_fast_witness :
    noFileEnv.localExists "/theme/missing.txt" = false
    ∧ uploadFileW noFileEnv "/theme/missing.txt" "/remote/missing.txt"
      = (.error { message := "Local file does not exist: /theme/missing.txt",
                  code := .FILE_NOT_FOUND, isRetryable := false, filePath := none }, []) :=
  ⟨rfl, uploadFile_missing_local_fails_fast noFileEnv "/theme/missing.txt" "/remote/missing.txt" rfl⟩

/-- The local tree `{a.txt, sub/b.txt}` with `a.txt` listed first. -/
def abTree : EntryList :=
  .cons (.file "a.txt") (.cons (.dir "sub" (.cons (.file "b.txt") .nil)) .nil)

/-- The local tree `{a.txt, sub/b.txt}` with `sub` listed first. -/
def baTree : EntryList :=
  .cons (.dir "sub" (.cons (.file "b.txt") .nil)) (.cons (.file "a.txt") .nil)

/-- C5 — confirmed.  Uploading the local tree `{a.txt, sub/b.txt}` to the
remote root `/theme` (in either `readdir` order) performs exactly two
`uploadFrom` transfers, targeting `/theme/a.txt` and `/theme/sub/b.txt`,
and exactly one `createDirectory` call, for `/theme/sub`.  (Each transfer
additionally `ensureDir`s its remote parent inside the same wrapped run, as
`uploadFile` specifies.) -/
theorem uploadAll_two_files_one_dir_calls :
    ((transfersOf (uploadAllW okEnv abTree "/local" "/theme").2).map Prod.snd
        = ["/theme/a.txt", "/theme/sub/b.txt"]
     ∧ dirCreationsOf (uploadAllW okEnv abTree "/local" "/theme").2 = ["/theme/sub"]
     ∧ (uploadAllW okEnv abTree "/local" "/theme").1 = .ok true)
    ∧ ((transfersOf (uploadAllW okEnv baTree "/local" "/theme").2).map Prod.snd
        = ["/theme/sub/b.txt", "/theme/a.txt"]
     ∧ dirCreationsOf (uploadAllW okEnv baTree "/local" "/theme").2 = ["/theme/sub"]) := by
  exact ⟨⟨rfl, rfl, rfl⟩, rfl, rfl⟩

/-- C7 — confirmed.  `classifyFtpError` is a total function: it returns a
classified error for every input; a non-`Error` input yields UNKNOWN, not
retryable, with the input's stringified representation embedded in the
message; an `Error` with a missing or empty message also yields UNKNOWN. -/
theorem classify_total_and_unknown_on_non_error :
    (∀ (inp : RawInput) (ctx : ErrorContext), ∃ r : FtpError, classifyFtpError inp ctx = r)
    ∧ (∀ (s : String) (ctx : ErrorContext),
        (classifyFtpError (.nonError s) ctx).code = Code.UNKNOWN_ERROR
        ∧ (classifyFtpError (.nonError s) ctx).isRetryable = false
        ∧ ∃ pre : String, (classifyFtpError (.nonError s) ctx).message = pre ++ s)
    ∧ (∀ ctx : ErrorContext, (classifyFtpError (.err none) ctx).code = Code.UNKNOWN_ERROR)
    ∧ (∀ ctx : ErrorContext, (classifyFtpError (.err (some "")) ctx).code = Code.UNKNOWN_ERROR) :=
  ⟨fun _ _ => ⟨_, rfl⟩,
   fun _ _ => ⟨rfl, rfl, "Unknown error: ", rfl⟩,
   fun _ => rfl,
   fun _ => rfl⟩

/-- The environment of the C8 scenario: the second file's wrapped transfer
fails (after `executeOperation`'s internal retries). -/
def skipEnv : Env :=
  { okEnv with wrapRes := fun p =>
      if p == Prim.uploadFrom "/L/f2" "/R/f2" then some "ECONNRESET during transfer" else none }

/-- The directory of three files of the C8 scenario. -/
def threeFiles : EntryList :=
  .cons (.file "f1") (.cons (.file "f2") (.cons (.file "f3") .nil))

/-- C6 — confirmed.  For every raw failure message (including messages
containing markers of several classes) and every context, the code's
classifier agrees with the spec's first-match precedence table: same code,
same retryability, and the context file path is attached exactly for the
FILE_NOT_FOUND and PERMISSION rows. -/
theorem classifier_first_match_precedence :
    ∀ (m : Option String) (ctx : ErrorContext),
      (classifyFtpError (.err m) ctx).code = (specClassify m).code
      ∧ (classifyFtpError (.err m) ctx).isRetryable = (specClassify m).retryable
      ∧ (classifyFtpError (.err m) ctx).filePath
          = (if (specClassify m).attach then ctx.filePath else none) := by
  intro m ctx
  simp only [classifyFtpError, specClassify, specTable, firstMatch, List.any_cons, List.any_nil,
    Bool.or_false, Bool.or_assoc]
  split_ifs <;> simp_all

/-- C8 — confirmed.  In a bulk upload of `{f1, f2, f3}` where `f2`'s
transfer fails after exhausting its retries, the walker still attempts
`f3` — its `uploadFile` call appears and its transfer succeeds — and
`uploadAll` returns aggregate success instead of raising. -/
theorem uploadAll_skip_and_continue :
    (uploadAllW skipEnv threeFiles "/L" "/R").1 = .ok true
    ∧ (uploadAllW skipEnv threeFiles "/L" "/R").2.contains
        (Ev.execFail (Prim.uploadFrom "/L/f2" "/R/f2")) = true
    ∧ (uploadAllW skipEnv threeFiles "/L" "/R").2.contains
        (Ev.svcUpload "/L/f3" "/R/f3") = true
    ∧ (uploadAllW skipEnv threeFiles "/L" "/R").2.contains
        (Ev.exec [Prim.ensureDir "/R", Prim.uploadFrom "/L/f3" "/R/f3"]) = true := by
  exact ⟨rfl, rfl, rfl, rfl⟩

/-- C10 — confirmed.  In the recursive walks, skip-and-continue applies only
to regular-file leaf transfers: (1) a file entry never changes the walk's
aggregate result, whatever its upload's outcome; (2) a failing
`createDirectory` for a subdirectory aborts the walk with the classified
error, the trace being independent of the remaining siblings; (3) an error
raised by the recursive subdirectory call propagates unchanged out of the
loop, the walk behaving exactly as if the remaining siblings were absent;
(4) in the download direction, a failing directory listing makes
`downloadDirectory` throw the classified error after only the connection
acquisition and the direct listing call. -/
theorem walk_failures_skip_files_only :
    (∀ (env : Env) (lp rp n : String) (rest : EntryList),
      (uploadWalk env (.cons (.file n) rest) lp rp).1 = (uploadWalk env rest lp rp).1)
    ∧ (∀ (env : Env) (lp rp n : String) (cs : EntryList) (rest : EntryList) (raw : String),
        env.wrapRes (.ensureDir (pjoin rp n)) = some raw →
        uploadWalk env (.cons (.dir n cs) rest) lp rp
          = (.error (classifyFtpError (.err (some raw)) ⟨some (pjoin rp n)⟩),
             [Ev.svcCreateDir (pjoin rp n), .getConn, .execFail (.ensureDir (pjoin rp n))]))
    ∧ (∀ (env : Env) (lp rp n : String) (cs : EntryList) (rest : EntryList) (e : FtpError),
        env.wrapRes (.ensureDir (pjoin rp n)) = none →
        (uploadDirectoryM env cs (pjoin lp n) (pjoin rp n)).1 = .error e →
        uploadWalk env (.cons (.dir n cs) rest) lp rp
            = uploadWalk env (.cons (.dir n cs) .nil) lp rp
        ∧ (uploadWalk env (.cons (.dir n cs) rest) lp rp).1 = .error e)
    ∧ (∀ (env : Env) (contents : RList) (rp lp tfp raw : String),
        env.directRes (.list rp) = some raw →
        downloadDirectoryM env contents rp lp tfp
          = (.error (classifyFtpError (.err (some raw)) ⟨some rp⟩),
             [.getConn, .direct (.list rp)])) := by
  refine ⟨fun env lp rp n rest => rfl, ?_, ?_, ?_⟩
  · intro env lp rp n cs rest raw h
    simp [uploadWalk, uploadEntry, createDirectoryW, h]
  · intro env lp rp n cs rest e h1 h2
    have hB : uploadDirBody env (pjoin lp n) (uploadWalk env cs (pjoin lp n) (pjoin rp n))
        = ((uploadDirectoryM env cs (pjoin lp n) (pjoin rp n)).1,
           (uploadDirectoryM env cs (pjoin lp n) (pjoin rp n)).2) := rfl
    rw [h2] at hB
    simp [uploadWalk, uploadEntry, createDirectoryW, h1, hB]
  · intro env contents rp lp tfp raw h
    simp [downloadDirectoryM, downloadDirBody, h]

/-- Environment where `createDirectory("/R/bad")` fails. -/
def badDirEnv : Env :=
  { okEnv with wrapRes := fun p =>
      if p == Prim.ensureDir "/R/bad" then some "553 denied" else none }

/-- Environment where `fs.readdir("/L/bad")` fails. -/
def badReaddirEnv : Env :=
  { okEnv with readdirFail := fun p => if p == "/L/bad" then some "boom" else none }

/-- Environment where `client.list("/R")` fails. -/
def badListEnv : Env :=
  { okEnv with directRes := fun p => if p == Prim.list "/R" then some "ENOTFOUND host" else none }

/-- Witness for C10, instantiating each part at concrete inputs. -/
theorem walk_failures_skip_files_only_witness :
    ((uploadWalk okEnv (.cons (.file "a") (.cons (.file "b") .nil)) "/L" "/R").1
        = (uploadWalk okEnv (.cons (.file "b") .nil) "/L" "/R").1)
    ∧ (badDirEnv.wrapRes (.ensureDir "/R/bad") = some "553 denied"
       ∧ uploadWalk badDirEnv (.cons (.dir "bad" .nil) (.cons (.file "z") .nil)) "/L" "/R"
          = (.error (classifyFtpError (.err (some "553 denied")) ⟨some "/R/bad"⟩),
             [Ev.svcCreateDir "/R/bad", .getConn, .execFail (.ensureDir "/R/bad")]))
    ∧ (badReaddirEnv.wrapRes (.ensureDir "/R/bad") = none
       ∧ (uploadDirectoryM badReaddirEnv .nil "/L/bad" "/R/bad").1
           = .error (classifyFtpError (.err (some "boom")) ⟨some "/L/bad"⟩)
       ∧ uploadWalk badReaddirEnv (.cons (.dir "bad" .nil) (.cons (.file "z") .nil)) "/L" "/R"
           = uploadWalk badReaddirEnv (.cons (.dir "bad" .nil) .nil) "/L" "/R"
       ∧ (uploadWalk badReaddirEnv (.cons (.dir "bad" .nil) (.cons (.file "z") .nil)) "/L" "/R").1
           = .error (classifyFtpError (.err (some "boom")) ⟨some "/L/bad"⟩))
    ∧ (badListEnv.directRes (.list "/R") = some "ENOTFOUND host"
       ∧ downloadDirectoryM badListEnv .nil "/R" "/l" "/l"
          = (.error (classifyFtpError (.err (some "ENOTFOUND host")) ⟨some "/R"⟩),
             [.getConn, .direct (.list "/R")])) :=
  ⟨walk_failures_skip_files_only.1 okEnv "/L" "/R" "a" (.cons (.file "b") .nil),
   ⟨rfl, walk_failures_skip_files_only.2.1 badDirEnv "/L" "/R" "bad" .nil
      (.cons (.file "z") .nil) "553 denied" rfl⟩,
   ⟨rfl, rfl,
    (walk_failures_skip_files_only.2.2.1 badReaddirEnv "/L" "/R" "bad" .nil
      (.cons (.file "z") .nil)
      (classifyFtpError (.err (some "boom")) ⟨some "/L/bad"⟩) rfl rfl).1,
    (walk_failures_skip_files_only.2.2.1 badReaddirEnv "/L" "/R" "bad" .nil
      (.cons (.file "z") .nil)
      (classifyFtpError (.err (some "boom")) ⟨some "/L/bad"⟩) rfl rfl).2⟩,
   ⟨rfl, walk_failures_skip_files_only.2.2.2 badListEnv .nil "/R" "/l" "/l"
      "ENOTFOUND host" rfl⟩⟩

/-- The remote tree `{x}` (one file at the root). -/
def oneRemoteFile : RList := .cons (.node "x" (.str "-") .nil) .nil

/-- C2 — the claim fails on the code at a concrete input: `downloadAll` over
a one-file remote tree performs its root listing and its file transfer as
direct client calls, and its whole trace contains no `executeOperation` run
at all — the retry wrapper is bypassed for the download direction. -/
theorem downloadAll_bypasses_retry_wrapper :
    (downloadAllM okEnv oneRemoteFile "/" "/local").2.contains
        (Ev.direct (Prim.list "/")) = true
    ∧ (downloadAllM okEnv oneRemoteFile "/" "/local").2.contains
        (Ev.direct (Prim.downloadTo "/local/x" "/x")) = true
    ∧ noWrappedEvs (downloadAllM okEnv oneRemoteFile "/" "/local").2 = true := by
  exact ⟨rfl, rfl, rfl⟩

/-- C2 — amended.  Every file-level operation (`uploadFile`, `downloadFile`,
`deleteFile`, `createDirectory`, `removeDirectory`, `listDirectory`) routes
all of its remote work through `executeOperation` (no direct client call),
and so does the recursive upload walk `uploadDirectory`; `uploadAll`'s only
direct client call is the single `ensureDir` of the remote base directory;
but `downloadAll` (with `downloadDirectory`) performs **all** of its
listings and transfers directly on the pooled client, never through
`executeOperation`. -/
theorem file_ops_routed_download_direct :
    (∀ (env : Env) (l r : String), noDirectEvs (uploadFileW env l r).2 = true)
    ∧ (∀ (env : Env) (r : String), noDirectEvs (deleteFileW env r).2 = true)
    ∧ (∀ (env : Env) (r : String), noDirectEvs (createDirectoryW env r).2 = true)
    ∧ (∀ (env : Env) (r : String), noDirectEvs (removeDirectoryW env r).2 = true)
    ∧ (∀ (env : Env) (r l : String), noDirectEvs (downloadFileW env r l).2 = true)
    ∧ (∀ (env : Env) (r : String), noDirectEvs (listDirectoryW env r).2 = true)
    ∧ (∀ (env : Env) (es : EntryList) (lp rp : String),
        noDirectEvs (uploadDirectoryM env es lp rp).2 = true)
    ∧ (∀ (env : Env) (t : EntryList) (lb rb : String),
        (uploadAllW env t lb rb).2.filter Ev.isDirect = []
        ∨ (uploadAllW env t lb rb).2.filter Ev.isDirect = [Ev.direct (Prim.ensureDir rb)])
    ∧ (∀ (env : Env) (ns : RList) (rb lb : String),
        noWrappedEvs (downloadAllM env ns rb lb).2 = true) := by
  refine ⟨noDirect_uploadFileW, ?_, noDirect_createDirectoryW, ?_, ?_, ?_,
    noDirect_uploadDirectoryM, ?_, ?_⟩
  · intro env r
    cases h : env.wrapRes (.remove r) <;>
      simp [deleteFileW, h, noDirectEvs, Ev.isDirect]
  · intro env r
    cases h : env.wrapRes (.removeDir r) <;>
      simp [removeDirectoryW, h, noDirectEvs, Ev.isDirect]
  · intro env r l
    cases h : env.wrapRes (.downloadTo l r) <;>
      simp [downloadFileW, h, noDirectEvs, Ev.isDirect]
  · intro env r
    cases h : env.wrapRes (.list r) <;>
      simp [listDirectoryW, h, noDirectEvs, Ev.isDirect]
  · intro env t lb rb
    by_cases he : env.localExists lb = false
    · left
      simp [uploadAllW, he]
    · cases hr : env.readdirFail lb
      · cases hd : env.directRes (.ensureDir rb)
        · right
          have hw := noDirect_uploadDirectoryM env t lb rb
          rcases hU : uploadDirectoryM env t lb rb with ⟨resU, evsU⟩
          rw [hU] at hw
          have hnil := filter_isDirect_eq_nil evsU hw
          cases resU <;>
            simp [uploadAllW, he, hr, hd, hU, List.filter_append, hnil, Ev.isDirect]
        · right
          simp [uploadAllW, he, hr, hd, Ev.isDirect]
      · left
        simp [uploadAllW, he, hr]
  · intro env ns rb lb
    have hw := noWrapped_downloadDirBody env rb _ (noWrapped_downloadWalk env lb ns rb lb)
    rcases hD : downloadDirectoryM env ns rb lb lb with ⟨resD, evsD⟩
    have : noWrappedEvs evsD = true := by
      have : downloadDirBody env rb (downloadWalk env lb ns rb lb)
          = (resD, evsD) := hD
      rw [this] at hw
      exact hw
    cases hl : env.directRes (.list rb) <;> cases resD <;>
      simp_all [downloadAllM, hD, noWrappedEvs, List.all_append, Bool.and_eq_true, Ev.isWrapped]

end Tnube
